import Mathlib

/-!
Shallow embedding of the rustieee IEEE 802.15.4 MAC frame codec.

Each definition mirrors one item of the Rust source:
bytes are modelled as `Nat` (with `< 256` hypotheses where a theorem
needs the `u8` range), byte buffers as `List Nat`, fallible decoding as
`Except`, and a reachable out-of-bounds slice index (a Rust panic) as
`none` in an `Option`-valued embedding.
-/

set_option maxRecDepth 4000

deriving instance DecidableEq for Except

namespace Rustieee

/-! ## Error types: src/parser.rs, src/composer.rs -/

/-- Decode-direction error type (`crate::parser::Error`). -/
inductive ParserError
  | InvalidHeader
  | InvalidPayload
deriving DecidableEq

/-- Encode-direction error type (`crate::composer::Error`). -/
inductive ComposerError
  | InvalidHeader
deriving DecidableEq

/-! ## Address model: src/ieee802154/address.rs -/

/-- `PanId(u16)`. -/
structure PanId where
  value : Nat
deriving DecidableEq

/-- `PanId::broadcast()` from the `Address` impl. -/
def PanId.broadcast : PanId := ⟨0xFFFF⟩

/-- `ShortAddress(PanId, u16)`. -/
structure ShortAddress where
  pan : PanId
  value : Nat
deriving DecidableEq

/-- `ShortAddress::new`. -/
def ShortAddress.new (pan : PanId) (address : Nat) : ShortAddress := ⟨pan, address⟩

/-- `ShortAddress::broadcast()`. -/
def ShortAddress.broadcast : ShortAddress := ⟨PanId.broadcast, 0xFFFF⟩

/-- `LongAddress(PanId, u64)`. -/
structure LongAddress where
  pan : PanId
  value : Nat
deriving DecidableEq

/-- `LongAddress::broadcast()`: the source literal is `0xFFFFFFFF`. -/
def LongAddress.broadcast : LongAddress := ⟨PanId.broadcast, 0xFFFFFFFF⟩

/-! ## Control field codec: src/ieee802154/control_field.rs -/

inductive FrameKind
  | Beacon
  | Data
  | Acknowledgment
  | MacCommand
  | MultiPurpose
  | Frak
  | Extended
deriving DecidableEq

def FrameKind.bits : FrameKind → Nat
  | .Beacon => 0x0
  | .Data => 0x1
  | .Acknowledgment => 0x2
  | .MacCommand => 0x3
  | .MultiPurpose => 0x5
  | .Frak => 0x6
  | .Extended => 0x7

/-- `FrameKind::from_byte`. -/
def FrameKind.from_byte : Nat → Except ParserError FrameKind
  | 0x0 => .ok .Beacon
  | 0x1 => .ok .Data
  | 0x2 => .ok .Acknowledgment
  | 0x3 => .ok .MacCommand
  | 0x5 => .ok .MultiPurpose
  | 0x6 => .ok .Frak
  | 0x7 => .ok .Extended
  | _ => .error .InvalidHeader

inductive FrameVersion
  | Ieee802154_2003
  | Ieee802154_2006
  | Ieee802154
deriving DecidableEq

/-- `FrameVersion::from_byte_std`. -/
def FrameVersion.from_byte_std : Nat → Except ParserError FrameVersion
  | 0x0 => .ok .Ieee802154_2003
  | 0x1 => .ok .Ieee802154_2006
  | 0x2 => .ok .Ieee802154
  | _ => .error .InvalidHeader

/-- `FrameVersion::from_byte_multipurpose`. -/
def FrameVersion.from_byte_multipurpose : Nat → Except ParserError FrameVersion
  | 0x0 => .ok .Ieee802154
  | _ => .error .InvalidHeader

/-- `FrameVersion::from_byte`. -/
def FrameVersion.from_byte (kind : FrameKind) (value : Nat) :
    Except ParserError FrameVersion :=
  match kind with
  | .Beacon | .Data | .Acknowledgment | .MacCommand =>
      FrameVersion.from_byte_std value
  | .MultiPurpose => FrameVersion.from_byte_multipurpose value
  | _ => .error .InvalidHeader

/-- `FrameVersion::bits_std`. -/
def FrameVersion.bits_std : FrameVersion → Nat
  | .Ieee802154_2003 => 0x0
  | .Ieee802154_2006 => 0x1
  | .Ieee802154 => 0x2

/-- `FrameVersion::bits_multipurpose`. -/
def FrameVersion.bits_multipurpose : FrameVersion → Except ComposerError Nat
  | .Ieee802154 => .ok 0x0
  | _ => .error .InvalidHeader

/-- `FrameVersion::bits`. -/
def FrameVersion.bits (v : FrameVersion) (kind : FrameKind) :
    Except ComposerError Nat :=
  match kind with
  | .Beacon | .Data | .Acknowledgment | .MacCommand => .ok v.bits_std
  | .MultiPurpose => v.bits_multipurpose
  | _ => .error .InvalidHeader

/-- The §4.1 legality matrix of the specification, transcribed from the
spec's words for the refinement claim about the control-field codec:
Beacon/Data/Acknowledgment/MacCommand admit every version, MultiPurpose
only the current version, Frak and Extended none. -/
def specVersionMatrix (kind : FrameKind) (v : FrameVersion) : Prop :=
  match kind with
  | .Beacon | .Data | .Acknowledgment | .MacCommand => True
  | .MultiPurpose => v = .Ieee802154
  | _ => False

instance (kind : FrameKind) (v : FrameVersion) :
    Decidable (specVersionMatrix kind v) := by
  unfold specVersionMatrix
  cases kind <;> infer_instance

deriving instance Fintype for FrameKind

deriving instance Fintype for FrameVersion

/-! ## Superframe codec: src/ieee802154/frame/beacon.rs -/

namespace beacon

namespace offset

def BEACON_ORDER : Nat := 0
def SUPER_FRAME_ORDER : Nat := 4
def FINAL_CAP_SLOT : Nat := 8
def BLE : Nat := 12
def PAN_COORDINATOR : Nat := 14
def ASSOCIATION_PERMIT : Nat := 15

end offset

namespace mask

def BEACON_ORDER : Nat := 0xF
def SUPER_FRAME_ORDER : Nat := 0xF <<< offset.SUPER_FRAME_ORDER
def FINAL_CAP_SLOT : Nat := 0xF <<< offset.FINAL_CAP_SLOT
def BLE : Nat := 0x1 <<< offset.BLE
def PAN_COORDINATOR : Nat := 0x1 <<< offset.PAN_COORDINATOR
def ASSOCIATION_PERMIT : Nat := 0x1 <<< offset.ASSOCIATION_PERMIT

end mask

structure SuperFrame where
  beacon_order : Nat
  super_frame_order : Nat
  final_cap_slot : Nat
  low_energy : Bool
  pan_coordinator : Bool
  association_permit : Bool
deriving DecidableEq

/-- `SuperFrame::from_bytes`, on the two little-endian bytes of the input.
The first field reproduces the Rust expression
`data & mask::BEACON_ORDER >> offset::BEACON_ORDER`, whose `>>` binds
tighter than `&`. -/
def SuperFrame.from_bytes (b0 b1 : Nat) : SuperFrame :=
  let data := b0 + 256 * b1
  { beacon_order := data &&& (mask.BEACON_ORDER >>> offset.BEACON_ORDER)
    super_frame_order := (data &&& mask.SUPER_FRAME_ORDER) >>> offset.SUPER_FRAME_ORDER
    final_cap_slot := (data &&& mask.FINAL_CAP_SLOT) >>> offset.FINAL_CAP_SLOT
    low_energy := (data &&& mask.BLE) >>> offset.BLE == 0x1
    pan_coordinator := (data &&& mask.PAN_COORDINATOR) >>> offset.PAN_COORDINATOR == 0x1
    association_permit :=
      (data &&& mask.ASSOCIATION_PERMIT) >>> offset.ASSOCIATION_PERMIT == 0x1 }

/-- `SuperFrame::bytes`, returned as the two little-endian bytes. -/
def SuperFrame.bytes (s : SuperFrame) : Nat × Nat :=
  let word :=
    ((s.beacon_order <<< offset.BEACON_ORDER) &&& mask.BEACON_ORDER) |||
    ((s.super_frame_order <<< offset.SUPER_FRAME_ORDER) &&& mask.SUPER_FRAME_ORDER) |||
    ((s.final_cap_slot <<< offset.FINAL_CAP_SLOT) &&& mask.FINAL_CAP_SLOT) |||
    (((if s.low_energy then 1 else 0) <<< offset.BLE) &&& mask.BLE) |||
    (((if s.pan_coordinator then 1 else 0) <<< offset.PAN_COORDINATOR) &&&
      mask.PAN_COORDINATOR) |||
    (((if s.association_permit then 1 else 0) <<< offset.ASSOCIATION_PERMIT) &&&
      mask.ASSOCIATION_PERMIT)
  (word &&& 0xFF, (word >>> 8) &&& 0xFF)

/-! ## GTS codec: src/ieee802154/frame/beacon.rs, `mod gts` -/

namespace gts

namespace off

def GTS_DESCRIPTOR_COUNT : Nat := 0
def GTS_PERMIT : Nat := 0x7
def GTS_STARTING_SLOT : Nat := 0
def GTS_DESC_LENGTH : Nat := 3

end off

namespace msk

def GTS_DESCRIPTOR_COUNT : Nat := 0x7 <<< off.GTS_DESCRIPTOR_COUNT
def GTS_PERMIT : Nat := 0x1 <<< off.GTS_PERMIT
def GTS_DIRECTION : Nat := 0x7F
def GTS_STARTING_SLOT : Nat := 0xF <<< off.GTS_STARTING_SLOT
def GTS_DESC_LENGTH : Nat := 0xF <<< off.GTS_DESC_LENGTH

end msk

def GTS_DESCRIPTOR_SIZE : Nat := 0x3

inductive GtsDirection
  | Receive
  | Transmit
deriving DecidableEq

/-- `GtsDirection::from_bit`. -/
def GtsDirection.from_bit : Bool → GtsDirection
  | true => .Receive
  | false => .Transmit

structure GtsDescriptor where
  address : ShortAddress
  starting_slot : Nat
  length : Nat
  direction : GtsDirection
deriving DecidableEq

structure Gts where
  permit : Bool
  descriptors : List GtsDescriptor
deriving DecidableEq

/-- One iteration of the descriptor loop of `Gts::from_bytes`: the slice
indexing of the Rust body is modelled by `List.get?`, so an
out-of-bounds access (a panic in Rust) yields `none`. -/
def readDescriptor (pan : PanId) (data : List Nat) (gts_direction : Nat)
    (i : Nat) : Option GtsDescriptor :=
  let index := GTS_DESCRIPTOR_SIZE * i + 2
  match data.get? (index + 2) with
  | none => none
  | some gts_desc_info =>
    match data.get? index, data.get? (index + 1) with
    | some a0, some a1 =>
      some
        { address := ShortAddress.new pan (a0 + 256 * a1)
          starting_slot := gts_desc_info &&& msk.GTS_STARTING_SLOT
          length := (gts_desc_info &&& msk.GTS_DESC_LENGTH) >>> off.GTS_DESC_LENGTH
          direction := GtsDirection.from_bit ((gts_direction &&& (0x1 <<< i)) != 0) }
    | _, _ => none

/-- The `for i in 0..desciptor_count` loop of `Gts::from_bytes`,
accumulating the pushed descriptors in order. -/
def readDescriptors (pan : PanId) (data : List Nat) (gts_direction : Nat) :
    Nat → Nat → Option (List GtsDescriptor)
  | _, 0 => some []
  | i, n + 1 =>
    match readDescriptor pan data gts_direction i with
    | none => none
    | some d =>
      match readDescriptors pan data gts_direction (i + 1) n with
      | none => none
      | some rest => some (d :: rest)

/-- `Gts::from_bytes`. The outer `Option` models panic-freedom: `none`
means the Rust code indexes past the end of `data`; `some r` is the
returned `Result`. -/
def Gts.from_bytes (pan : PanId) (data : List Nat) :
    Option (Except ParserError Gts) :=
  if data.isEmpty then some (.error .InvalidPayload)
  else
    match data.get? 0 with
    | none => none
    | some gts_spec =>
      let desciptor_count :=
        (gts_spec &&& msk.GTS_DESCRIPTOR_COUNT) >>> off.GTS_DESCRIPTOR_COUNT
      let permit := gts_spec &&& msk.GTS_PERMIT != 0
      if desciptor_count ≠ 0 then
        if desciptor_count * GTS_DESCRIPTOR_SIZE + 2 < data.length then
          some (.error .InvalidPayload)
        else
          match data.get? 1 with
          | none => none
          | some b1 =>
            let gts_direction := b1 &&& msk.GTS_DIRECTION
            match readDescriptors pan data gts_direction 0 desciptor_count with
            | none => none
            | some l => some (.ok { permit := permit, descriptors := l })
      else some (.ok { permit := permit, descriptors := [] })

/-- The 23-byte max-descriptor GTS payload of the repository's own test. -/
def gtsTestPayload : List Nat :=
  [0x87, 0xF0, 0xAB, 0xCD, 0xFA, 0xAB, 0xCD, 0xFA, 0xAB, 0xCD, 0xFA, 0xAB, 0xCD, 0xFA,
   0xAB, 0xCD, 0xFA, 0xAB, 0xCD, 0xFA, 0xAB, 0xCD, 0xFA]

end gts

end beacon

/-! ## Auxiliary security header codec: src/ieee802154/security_header.rs -/

/-- Error type of the `byte` crate reader used by `try_read`:
`Incomplete` for reading past the end, `BadInput` with its message. -/
inductive ByteError
  | Incomplete
  | BadInput (msg : String)
deriving DecidableEq

/-- `bytes.read::<u8>(offset)` of the `byte` crate: one byte at `off`,
failing with `Incomplete` past the end. -/
def readU8 (bytes : List Nat) (off : Nat) : Except ByteError Nat :=
  match bytes.get? off with
  | some b => .ok b
  | none => .error .Incomplete

/-- `bytes.read_with(offset, LE)` for an `n`-byte little-endian integer. -/
def readLE (bytes : List Nat) (off : Nat) : Nat → Except ByteError Nat
  | 0 => .ok 0
  | n + 1 =>
    match bytes.get? off with
    | some b =>
      match readLE bytes (off + 1) n with
      | .ok v => .ok (b + 256 * v)
      | .error e => .error e
    | none => .error .Incomplete

inductive Mic
  | Mic32
  | Mic64
  | Mic128
deriving DecidableEq

structure SecurityLevel where
  mic : Mic
  encrypted : Bool
deriving DecidableEq

inductive KeyIdentifierMode
  | Implicit
  | KeyIndex (idx : Nat)
  | Key4 (key : Nat) (idx : Nat)
  | Key8 (key : Nat) (idx : Nat)
deriving DecidableEq

/-- `KeyIdentifierMode::key_identifier_length`. -/
def KeyIdentifierMode.key_identifier_length : KeyIdentifierMode → Nat
  | .Implicit => 0
  | .KeyIndex _ => 1
  | .Key4 _ _ => 5
  | .Key8 _ _ => 9

structure AuxiliarySecurityHeader where
  security_level : Option SecurityLevel
  key_identifier_mode : KeyIdentifierMode
  frame_counter : Option Nat
deriving DecidableEq

/-- `AuxiliarySecurityHeader::try_read` (the `TryRead` impl): returns the
decoded header together with the number of bytes consumed.  The reader
offset of the Rust code advances by the size of each read, so the
offsets here are the same literals, threaded explicitly. -/
def AuxiliarySecurityHeader.try_read (bytes : List Nat) :
    Except ByteError (AuxiliarySecurityHeader × Nat) :=
  match readU8 bytes 0 with
  | .error e => .error e
  | .ok security_control =>
    let security_level := security_control &&& 0x7
    let key_identifier_mode := (security_control >>> 3) &&& 0x3
    let frame_counter_present := security_control &&& (1 <<< 5) == 0
    let micRes : Except ByteError (Option SecurityLevel) :=
      if security_level != 0 then
        match security_level &&& 0x3 with
        | 0x1 => .ok (some ⟨Mic.Mic32, security_level &&& 0x4 != 0⟩)
        | 0x2 => .ok (some ⟨Mic.Mic64, security_level &&& 0x4 != 0⟩)
        | 0x3 => .ok (some ⟨Mic.Mic128, security_level &&& 0x4 != 0⟩)
        | _ => .error (ByteError.BadInput "Invalid MIC")
      else .ok none
    match micRes with
    | .error e => .error e
    | .ok sl =>
      let fcRes : Except ByteError (Option Nat × Nat) :=
        if frame_counter_present then
          match readLE bytes 1 4 with
          | .error e => .error e
          | .ok v => .ok (some v, 1 + 4)
        else .ok (none, 1)
      match fcRes with
      | .error e => .error e
      | .ok (fc, off2) =>
        let kmRes : Except ByteError (KeyIdentifierMode × Nat) :=
          match key_identifier_mode with
          | 0x1 =>
            match readU8 bytes off2 with
            | .error e => .error e
            | .ok b => .ok (KeyIdentifierMode.KeyIndex b, off2 + 1)
          | 0x2 =>
            match readLE bytes off2 4 with
            | .error e => .error e
            | .ok k =>
              match readU8 bytes (off2 + 4) with
              | .error e => .error e
              | .ok b => .ok (KeyIdentifierMode.Key4 k b, off2 + 5)
          | 0x3 =>
            match readLE bytes off2 8 with
            | .error e => .error e
            | .ok k =>
              match readU8 bytes (off2 + 8) with
              | .error e => .error e
              | .ok b => .ok (KeyIdentifierMode.Key8 k b, off2 + 9)
          | _ => .ok (KeyIdentifierMode.Implicit, off2)
        match kmRes with
        | .error e => .error e
        | .ok (km, off3) => .ok (⟨sl, km, fc⟩, off3)

/-! ## General bit-manipulation lemmas used by the superframe proofs -/

theorem and_mask_shift (x m k : Nat) :
    (x &&& (m <<< k)) >>> k = (x >>> k) &&& m := by
  apply Nat.eq_of_testBit_eq
  intro i
  rw [Nat.testBit_shiftRight, Nat.testBit_and, Nat.testBit_shiftLeft,
      Nat.testBit_and, Nat.testBit_shiftRight]
  have h1 : k + i ≥ k := Nat.le_add_right k i
  simp [h1, Nat.add_sub_cancel_left]

theorem shiftLeft_and_shiftLeft (a b k : Nat) :
    (a <<< k) &&& (b <<< k) = (a &&& b) <<< k := by
  apply Nat.eq_of_testBit_eq
  intro i
  rw [Nat.testBit_and, Nat.testBit_shiftLeft, Nat.testBit_shiftLeft,
      Nat.testBit_shiftLeft, Nat.testBit_and]
  by_cases h : i ≥ k <;> simp [h]

theorem or_and_right (a b m : Nat) : (a ||| b) &&& m = (a &&& m) ||| (b &&& m) := by
  apply Nat.eq_of_testBit_eq
  intro i
  rw [Nat.testBit_and, Nat.testBit_or, Nat.testBit_or, Nat.testBit_and, Nat.testBit_and]
  cases a.testBit i <;> cases b.testBit i <;> cases m.testBit i <;> rfl

theorem shiftRight_or (a b k : Nat) :
    (a ||| b) >>> k = (a >>> k) ||| (b >>> k) := by
  apply Nat.eq_of_testBit_eq
  intro i
  rw [Nat.testBit_shiftRight, Nat.testBit_or, Nat.testBit_or,
      Nat.testBit_shiftRight, Nat.testBit_shiftRight]

theorem and_15 (x : Nat) : x &&& 15 = x % 16 := by
  have h := Nat.and_pow_two_sub_one_eq_mod x 4
  simpa using h

theorem and_1 (x : Nat) : x &&& 1 = x % 2 :=
  Nat.and_one_is_mod x

theorem and_255 (x : Nat) : x &&& 255 = x % 256 := by
  have h := Nat.and_pow_two_sub_one_eq_mod x 8
  simpa using h

theorem low_byte_glue (a b c d e f : Nat) (ha : a < 16) (hb : b < 16) :
    (((((a ||| b * 16) ||| c * 256) ||| d * 4096) ||| e * 16384) ||| f * 32768) &&& 255
      = a + 16 * b := by
  rw [or_and_right, or_and_right, or_and_right, or_and_right, or_and_right]
  rw [and_255, and_255, and_255, and_255, and_255, and_255]
  have h1 : a % 256 = a := by omega
  have h2 : b * 16 % 256 = b * 16 := by omega
  have h3 : c * 256 % 256 = 0 := by omega
  have h4 : d * 4096 % 256 = 0 := by omega
  have h5 : e * 16384 % 256 = 0 := by omega
  have h6 : f * 32768 % 256 = 0 := by omega
  rw [h1, h2, h3, h4, h5, h6, Nat.or_zero, Nat.or_zero, Nat.or_zero, Nat.or_zero]
  have key : ∀ a < 16, ∀ b < 16, (a ||| b * 16) = a + 16 * b := by decide
  exact key a ha b hb

theorem high_byte_glue (a b c d e f : Nat) (ha : a < 16) (hb : b < 16) (hc : c < 16)
    (hd : d ≤ 1) (he : e ≤ 1) (hf : f ≤ 1) :
    ((((((a ||| b * 16) ||| c * 256) ||| d * 4096) ||| e * 16384) ||| f * 32768) >>> 8) &&& 255
      = c + 16 * d + 64 * e + 128 * f := by
  rw [shiftRight_or, shiftRight_or, shiftRight_or, shiftRight_or, shiftRight_or]
  have h1 : a >>> 8 = 0 := by rw [Nat.shiftRight_eq_div_pow]; omega
  have h2 : (b * 16) >>> 8 = 0 := by rw [Nat.shiftRight_eq_div_pow]; omega
  have h3 : (c * 256) >>> 8 = c := by rw [Nat.shiftRight_eq_div_pow]; omega
  have h4 : (d * 4096) >>> 8 = d * 16 := by rw [Nat.shiftRight_eq_div_pow]; omega
  have h5 : (e * 16384) >>> 8 = e * 64 := by rw [Nat.shiftRight_eq_div_pow]; omega
  have h6 : (f * 32768) >>> 8 = f * 128 := by rw [Nat.shiftRight_eq_div_pow]; omega
  rw [h1, h2, h3, h4, h5, h6, Nat.zero_or, Nat.zero_or]
  have key : ∀ c < 16, ∀ d ≤ 1, ∀ e ≤ 1, ∀ f ≤ 1,
      ((((c ||| d * 16) ||| e * 64) ||| f * 128) &&& 255) = c + 16 * d + 64 * e + 128 * f := by
    decide
  exact key c hc d hd e he f hf

theorem ite_beq_mod_two (x : Nat) : (if x % 2 == 1 then (1 : Nat) else 0) = x % 2 := by
  rcases Nat.mod_two_eq_zero_or_one x with h | h <;> simp [h]

theorem get?_eq_some_getD {l : List Nat} {k : Nat} (h : k < l.length) :
    l.get? k = some (l.getD k 0) := by
  rw [List.getD_eq_get?, List.get?_eq_get h]
  rfl

theorem and_two_pow_ne (x j : Nat) : ((x &&& (1 <<< j)) != 0) = Nat.testBit x j := by
  rw [Nat.one_shiftLeft, Nat.and_two_pow]
  cases h : x.testBit j <;> simp [h]

/-! ## Superframe codec: arithmetic characterization and round trip -/

namespace beacon

/-- The decoded fields of `SuperFrame::from_bytes` as plain arithmetic on
the two input bytes.  Reserved bit 13 of the 16-bit word (bit 5 of the
second byte) is read by no field. -/
theorem from_bytes_arith (b0 b1 : Nat) (h0 : b0 < 256) (_h1 : b1 < 256) :
    SuperFrame.from_bytes b0 b1 =
      ⟨b0 % 16, b0 / 16, b1 % 16,
       (b1 / 16) % 2 == 1, (b1 / 64) % 2 == 1, (b1 / 128) % 2 == 1⟩ := by
  unfold SuperFrame.from_bytes
  simp only [mask.BEACON_ORDER, mask.SUPER_FRAME_ORDER, mask.FINAL_CAP_SLOT, mask.BLE,
    mask.PAN_COORDINATOR, mask.ASSOCIATION_PERMIT, offset.BEACON_ORDER,
    offset.SUPER_FRAME_ORDER, offset.FINAL_CAP_SLOT, offset.BLE, offset.PAN_COORDINATOR,
    offset.ASSOCIATION_PERMIT, Nat.shiftRight_zero]
  rw [and_mask_shift, and_mask_shift, and_mask_shift, and_mask_shift, and_mask_shift]
  simp only [Nat.shiftRight_eq_div_pow, and_15, and_1]
  norm_num
  refine ⟨by omega, by omega, by omega, ?_, ?_, ?_⟩
  · have h : (b0 + 256 * b1) / 4096 % 2 = b1 / 16 % 2 := by omega
    rw [h]
  · have h : (b0 + 256 * b1) / 16384 % 2 = b1 / 64 % 2 := by omega
    rw [h]
  · have h : (b0 + 256 * b1) / 32768 % 2 = b1 / 128 % 2 := by omega
    rw [h]

/-- The two bytes produced by `SuperFrame::bytes`, as plain arithmetic,
for field values within their wire widths. -/
theorem bytes_arith (s : SuperFrame) (hbo : s.beacon_order < 16)
    (hsfo : s.super_frame_order < 16) (hfcs : s.final_cap_slot < 16) :
    SuperFrame.bytes s =
      (s.beacon_order + 16 * s.super_frame_order,
       s.final_cap_slot + 16 * (if s.low_energy then 1 else 0) +
         64 * (if s.pan_coordinator then 1 else 0) +
         128 * (if s.association_permit then 1 else 0)) := by
  obtain ⟨bo, sfo, fcs, le, pc, ap⟩ := s
  simp only at hbo hsfo hfcs ⊢
  unfold SuperFrame.bytes
  simp only [mask.BEACON_ORDER, mask.SUPER_FRAME_ORDER, mask.FINAL_CAP_SLOT, mask.BLE,
    mask.PAN_COORDINATOR, mask.ASSOCIATION_PERMIT, offset.BEACON_ORDER,
    offset.SUPER_FRAME_ORDER, offset.FINAL_CAP_SLOT, offset.BLE, offset.PAN_COORDINATOR,
    offset.ASSOCIATION_PERMIT, Nat.shiftLeft_zero]
  rw [shiftLeft_and_shiftLeft, shiftLeft_and_shiftLeft, shiftLeft_and_shiftLeft,
      shiftLeft_and_shiftLeft, shiftLeft_and_shiftLeft]
  simp only [and_15, and_1]
  rw [Nat.mod_eq_of_lt hbo, Nat.mod_eq_of_lt hsfo, Nat.mod_eq_of_lt hfcs]
  have hle : (if le then (1 : Nat) else 0) % 2 = (if le then 1 else 0) := by
    cases le <;> rfl
  have hpc : (if pc then (1 : Nat) else 0) % 2 = (if pc then 1 else 0) := by
    cases pc <;> rfl
  have hap : (if ap then (1 : Nat) else 0) % 2 = (if ap then 1 else 0) := by
    cases ap <;> rfl
  rw [hle, hpc, hap]
  generalize hLe : (if le then (1 : Nat) else 0) = d
  generalize hPc : (if pc then (1 : Nat) else 0) = e
  generalize hAp : (if ap then (1 : Nat) else 0) = f
  have hd : d ≤ 1 := by rw [← hLe]; cases le <;> simp
  have he : e ≤ 1 := by rw [← hPc]; cases pc <;> simp
  have hf : f ≤ 1 := by rw [← hAp]; cases ap <;> simp
  simp only [Nat.shiftLeft_eq]
  have p4 : (2 : Nat) ^ 4 = 16 := by norm_num
  have p8 : (2 : Nat) ^ 8 = 256 := by norm_num
  have p12 : (2 : Nat) ^ 12 = 4096 := by norm_num
  have p14 : (2 : Nat) ^ 14 = 16384 := by norm_num
  have p15 : (2 : Nat) ^ 15 = 32768 := by norm_num
  rw [p4, p8, p12, p14, p15]
  refine Prod.ext ?_ ?_
  · exact low_byte_glue _ _ _ _ _ _ hbo hsfo
  · exact high_byte_glue _ _ _ _ _ _ hbo hsfo hfcs hd he hf

/-- C1 counterexample: the 2-byte input `[0x00, 0x20]` (reserved bit 13
of the superframe word set) does not survive the
`bytes ∘ from_bytes` round trip, so the round trip is not exact for all
65536 inputs. -/
theorem C1_counterexample :
    SuperFrame.bytes (SuperFrame.from_bytes 0x00 0x20) ≠ (0x00, 0x20) := by
  decide

/-- C1 (amended): for every 2-byte input whose reserved bit 13 (bit 5 of
the second byte) is clear, `SuperFrame::bytes ∘ SuperFrame::from_bytes`
is the identity; inputs with that bit set re-encode with the bit
cleared, as `C1_counterexample` shows. -/
theorem C1_superframe_roundtrip_amended (b0 b1 : Nat) (h0 : b0 < 256) (h1 : b1 < 256)
    (h13 : b1 &&& 0x20 = 0) :
    SuperFrame.bytes (SuperFrame.from_bytes b0 b1) = (b0, b1) := by
  rw [from_bytes_arith b0 b1 h0 h1]
  rw [bytes_arith _ (show b0 % 16 < 16 by omega) (show b0 / 16 < 16 by omega)
      (show b1 % 16 < 16 by omega)]
  have hb : b1 / 32 % 2 = 0 := by
    have key : ∀ b < 256, b &&& 32 = 0 → b / 32 % 2 = 0 := by decide
    exact key b1 h1 h13
  dsimp only
  rw [ite_beq_mod_two, ite_beq_mod_two, ite_beq_mod_two]
  refine Prod.ext ?_ ?_ <;> dsimp only <;> omega

/-- Witness for C1 (amended) at the concrete input `[0xA5, 0x52]` of the
repository's own round-trip test. -/
theorem C1_witness :
    SuperFrame.bytes (SuperFrame.from_bytes 0xA5 0x52) = (0xA5, 0x52) :=
  C1_superframe_roundtrip_amended 0xA5 0x52 (by decide) (by decide) (by decide)

end beacon

/-! ## GTS codec theorems -/

namespace beacon

namespace gts

theorem readDescriptor_none_of_short (pan : PanId) (data : List Nat) (dir i : Nat)
    (h : data.length < 3 * i + 5) : readDescriptor pan data dir i = none := by
  have hg : data.get? (GTS_DESCRIPTOR_SIZE * i + 2 + 2) = none := by
    rw [List.get?_eq_none]
    simp only [GTS_DESCRIPTOR_SIZE]
    omega
  simp only [readDescriptor]
  rw [hg]

theorem readDescriptors_oob (pan : PanId) (data : List Nat) (dir : Nat) :
    ∀ n i, n ≠ 0 → data.length < 3 * (i + n) + 2 →
      readDescriptors pan data dir i n = none := by
  intro n
  induction n with
  | zero => intro i h _; exact absurd rfl h
  | succ m ih =>
    intro i _ hlen
    cases hd : readDescriptor pan data dir i with
    | none => rw [readDescriptors, hd]
    | some d =>
      have hlong : 3 * i + 5 ≤ data.length := by
        by_contra hc
        rw [readDescriptor_none_of_short pan data dir i (by omega)] at hd
        exact Option.noConfusion hd
      match m with
      | 0 => omega
      | m' + 1 =>
        have h2 := ih (i + 1) (Nat.succ_ne_zero m') (by omega)
        rw [readDescriptors, hd]
        simp [h2]

/-- C3: for every buffer that announces a nonzero descriptor count but is
shorter than `2 + 3*count` bytes, `Gts::from_bytes` indexes past the end
of the slice (`none` in this embedding, a panic in Rust) instead of
returning an error value. -/
theorem C3_gts_short_buffer_oob (pan : PanId) (data : List Nat) (b : Nat)
    (hfst : data.get? 0 = some b) (hcount : b &&& 7 ≠ 0)
    (hlen : data.length < 3 * (b &&& 7) + 2) :
    Gts.from_bytes pan data = none := by
  have hie : data.isEmpty = false := by
    cases data with
    | nil => simp at hfst
    | cons a l => rfl
  simp only [Gts.from_bytes, hie, hfst, msk.GTS_DESCRIPTOR_COUNT, off.GTS_DESCRIPTOR_COUNT,
    msk.GTS_PERMIT, off.GTS_PERMIT, msk.GTS_DIRECTION, GTS_DESCRIPTOR_SIZE,
    Nat.shiftLeft_zero, Nat.shiftRight_zero, Bool.false_eq_true, if_false]
  rw [if_pos hcount, if_neg (by omega)]
  cases hg1 : data.get? 1 with
  | none => simp
  | some b1 =>
    have hro := readDescriptors_oob pan data (b1 &&& 127) (b &&& 7) 0 hcount (by omega)
    simp [hg1, hro]

/-- Witness for C3: the 3-byte buffer `[0x02, 0x00, 0x00]` announces two
descriptors (needing 8 bytes) and drives the decoder out of bounds. -/
theorem C3_witness : Gts.from_bytes ⟨0⟩ [0x02, 0x00, 0x00] = none :=
  C3_gts_short_buffer_oob ⟨0⟩ [0x02, 0x00, 0x00] 0x02 rfl (by decide) (by decide)

/-- C2: the length guard of `Gts::from_bytes` is inverted.  A 2-byte
buffer announcing one descriptor (which needs 5 bytes) runs off the end
of the slice (`none`, a panic in Rust) instead of failing with
`InvalidPayload`, while a 6-byte buffer (one byte more than needed) is
rejected with `InvalidPayload` instead of being accepted. -/
theorem C2_gts_length_check_divergence :
    Gts.from_bytes ⟨0⟩ [0x01, 0x00] = none ∧
    Gts.from_bytes ⟨0⟩ [0x01, 0x00, 0x00, 0x00, 0x00, 0x00] =
      some (.error .InvalidPayload) := by
  decide

theorem readDescriptors_ok (pan : PanId) (data : List Nat) (dir : Nat) :
    ∀ n i, 3 * (i + n) + 2 ≤ data.length →
      ∃ l, readDescriptors pan data dir i n = some l ∧ l.length = n ∧
        ∀ j, j < n → l.get? j = some
          { address := ShortAddress.new pan
              (data.getD (3 * (i + j) + 2) 0 + 256 * data.getD (3 * (i + j) + 3) 0)
            starting_slot := data.getD (3 * (i + j) + 4) 0 &&& 15
            length := (data.getD (3 * (i + j) + 4) 0 &&& 120) >>> 3
            direction := GtsDirection.from_bit ((dir &&& (1 <<< (i + j))) != 0) } := by
  intro n
  induction n with
  | zero =>
    intro i _
    exact ⟨[], rfl, rfl, fun j hj => absurd hj (Nat.not_lt_zero j)⟩
  | succ m ih =>
    intro i hlen
    have h2 : data.get? (3 * i + 2) = some (data.getD (3 * i + 2) 0) :=
      get?_eq_some_getD (by omega)
    have h3 : data.get? (3 * i + 3) = some (data.getD (3 * i + 3) 0) :=
      get?_eq_some_getD (by omega)
    have h4 : data.get? (3 * i + 4) = some (data.getD (3 * i + 4) 0) :=
      get?_eq_some_getD (by omega)
    have hrd : readDescriptor pan data dir i = some
        { address := ShortAddress.new pan
            (data.getD (3 * i + 2) 0 + 256 * data.getD (3 * i + 3) 0)
          starting_slot := data.getD (3 * i + 4) 0 &&& 15
          length := (data.getD (3 * i + 4) 0 &&& 120) >>> 3
          direction := GtsDirection.from_bit ((dir &&& (1 <<< i)) != 0) } := by
      simp only [readDescriptor, GTS_DESCRIPTOR_SIZE, msk.GTS_STARTING_SLOT,
        msk.GTS_DESC_LENGTH, off.GTS_STARTING_SLOT, off.GTS_DESC_LENGTH,
        Nat.shiftLeft_zero]
      have e2 : 3 * i + 2 + 2 = 3 * i + 4 := by omega
      have e1 : 3 * i + 2 + 1 = 3 * i + 3 := by omega
      have e3 : (15 : Nat) <<< 3 = 120 := by decide
      rw [e2, e1, h4, h2, h3, e3]
    obtain ⟨l, hl, hlenl, hget⟩ := ih (i + 1) (by omega)
    refine ⟨GtsDescriptor.mk
        (ShortAddress.new pan (data.getD (3 * i + 2) 0 + 256 * data.getD (3 * i + 3) 0))
        (data.getD (3 * i + 4) 0 &&& 15)
        ((data.getD (3 * i + 4) 0 &&& 120) >>> 3)
        (GtsDirection.from_bit ((dir &&& (1 <<< i)) != 0)) :: l,
      ?_, by simp [hlenl], ?_⟩
    · rw [readDescriptors, hrd]
      simp [hl]
    · intro j hj
      cases j with
      | zero =>
        have e : i + 0 = i := Nat.add_zero i
        rw [e]
        rfl
      | succ j' =>
        have hj' : j' < m := by omega
        have hq := hget j' hj'
        have e : i + 1 + j' = i + (j' + 1) := by omega
        rw [e] at hq
        simpa using hq

theorem and_127_pow (j : Nat) (hj : j < 7) : (127 : Nat) &&& (1 <<< j) = 1 <<< j := by
  have key : ∀ j < 7, (127 : Nat) &&& (1 <<< j) = 1 <<< j := by decide
  exact key j hj

/-- C4: full characterization of a successful GTS decode.  With a zero
descriptor count the permit flag (bit 7 of the spec byte) and an empty
list are returned; with a nonzero count `c` and a buffer of exactly
`2 + 3*c` bytes, descriptor `i` carries the little-endian short address
at offset `2+3*i`, the low 4 bits of the info byte as `starting_slot`,
the `0x78`-masked info byte shifted by 3 as `length`, and direction
Receive exactly when bit `i` of the byte-1 bitmap is set. -/
theorem C4_gts_exact_decode (pan : PanId) (data : List Nat) (b : Nat)
    (hfst : data.get? 0 = some b) :
    (b &&& 7 = 0 → Gts.from_bytes pan data =
        some (Except.ok { permit := Nat.testBit b 7, descriptors := [] })) ∧
    (b &&& 7 ≠ 0 → data.length = 3 * (b &&& 7) + 2 →
      ∃ l, Gts.from_bytes pan data =
          some (Except.ok { permit := Nat.testBit b 7, descriptors := l }) ∧
        l.length = b &&& 7 ∧
        ∀ j, j < b &&& 7 → l.get? j = some
          (GtsDescriptor.mk
            (ShortAddress.new pan (data.getD (3 * j + 2) 0 + 256 * data.getD (3 * j + 3) 0))
            (data.getD (3 * j + 4) 0 &&& 15)
            ((data.getD (3 * j + 4) 0 &&& 120) >>> 3)
            (if Nat.testBit (data.getD 1 0) j then GtsDirection.Receive
             else GtsDirection.Transmit))) := by
  have hie : data.isEmpty = false := by
    cases data with
    | nil => simp at hfst
    | cons a l => rfl
  have hpermit : ((b &&& 1 <<< 7) != 0) = Nat.testBit b 7 := and_two_pow_ne b 7
  constructor
  · intro hz
    simp only [Gts.from_bytes, hie, hfst, msk.GTS_DESCRIPTOR_COUNT, off.GTS_DESCRIPTOR_COUNT,
      msk.GTS_PERMIT, off.GTS_PERMIT, Nat.shiftLeft_zero, Nat.shiftRight_zero,
      Bool.false_eq_true, if_false]
    rw [if_neg (by omega), hpermit]
  · intro hnz hlen
    have hcount7 : b &&& 7 ≤ 7 := Nat.and_le_right
    have hb1 : data.get? 1 = some (data.getD 1 0) := get?_eq_some_getD (by omega)
    obtain ⟨l, hl, hlenl, hget⟩ :=
      readDescriptors_ok pan data (data.getD 1 0 &&& 127) (b &&& 7) 0 (by omega)
    refine ⟨l, ?_, hlenl, ?_⟩
    · simp only [Gts.from_bytes, hie, hfst, msk.GTS_DESCRIPTOR_COUNT, off.GTS_DESCRIPTOR_COUNT,
        msk.GTS_PERMIT, off.GTS_PERMIT, msk.GTS_DIRECTION, GTS_DESCRIPTOR_SIZE,
        Nat.shiftLeft_zero, Nat.shiftRight_zero, Bool.false_eq_true, if_false]
      rw [if_pos hnz, if_neg (by omega), hb1]
      simp only [hl, hpermit]
    · intro j hj
      have hq := hget j hj
      have e0 : 0 + j = j := Nat.zero_add j
      rw [e0] at hq
      have hdir : GtsDirection.from_bit (((data.getD 1 0 &&& 127) &&& (1 <<< j)) != 0)
          = (if Nat.testBit (data.getD 1 0) j then GtsDirection.Receive
             else GtsDirection.Transmit) := by
        rw [Nat.land_assoc, and_127_pow j (by omega), and_two_pow_ne]
        cases h : Nat.testBit (data.getD 1 0) j <;> simp [h, GtsDirection.from_bit]
      rw [hq, hdir]

/-- Witness for C4 at the repository's 7-descriptor test payload. -/
theorem C4_witness :
    ∃ l, Gts.from_bytes PanId.broadcast gtsTestPayload =
        some (Except.ok { permit := Nat.testBit 0x87 7, descriptors := l }) ∧
      l.length = 0x87 &&& 7 ∧
      ∀ j, j < 0x87 &&& 7 → l.get? j = some
        (GtsDescriptor.mk
          (ShortAddress.new PanId.broadcast
            (gtsTestPayload.getD (3 * j + 2) 0 + 256 * gtsTestPayload.getD (3 * j + 3) 0))
          (gtsTestPayload.getD (3 * j + 4) 0 &&& 15)
          ((gtsTestPayload.getD (3 * j + 4) 0 &&& 120) >>> 3)
          (if Nat.testBit (gtsTestPayload.getD 1 0) j then GtsDirection.Receive
           else GtsDirection.Transmit)) :=
  (C4_gts_exact_decode PanId.broadcast gtsTestPayload 0x87 rfl).2 (by decide) (by decide)

end gts

end beacon

/-! ## Control-field codec theorems -/

/-- C6: `FrameKind::from_byte` succeeds exactly on the seven defined
codes {0,1,2,3,5,6,7}, fails with the parser-side `InvalidHeader` on
every other byte, and `FrameKind::bits` is its total exact inverse. -/
theorem C6_frame_kind_codes :
    (∀ b, b < 256 → ((∃ k, FrameKind.from_byte b = Except.ok k) ↔
        (b = 0 ∨ b = 1 ∨ b = 2 ∨ b = 3 ∨ b = 5 ∨ b = 6 ∨ b = 7))) ∧
    (∀ b, b < 256 → ¬(b = 0 ∨ b = 1 ∨ b = 2 ∨ b = 3 ∨ b = 5 ∨ b = 6 ∨ b = 7) →
        FrameKind.from_byte b = Except.error ParserError.InvalidHeader) ∧
    (∀ k : FrameKind, FrameKind.from_byte k.bits = Except.ok k) := by
  decide

theorem C6_witness :
    FrameKind.from_byte 4 = Except.error ParserError.InvalidHeader ∧
    FrameKind.from_byte FrameKind.Beacon.bits = Except.ok FrameKind.Beacon :=
  ⟨C6_frame_kind_codes.2.1 4 (by decide) (by decide),
   C6_frame_kind_codes.2.2 FrameKind.Beacon⟩

/-- C5: the kind/version legality matrix of the spec. -/
theorem C5_frame_version_matrix :
    (∀ k v, specVersionMatrix k v →
      (FrameVersion.bits v k).toOption.map (fun c => FrameVersion.from_byte k c) =
        some (Except.ok v)) ∧
    (∀ k v, ¬ specVersionMatrix k v →
      FrameVersion.bits v k = Except.error ComposerError.InvalidHeader) ∧
    (∀ k : FrameKind, ∀ c, c < 256 →
      (∀ v, ¬ (specVersionMatrix k v ∧ FrameVersion.bits v k = Except.ok c)) →
      FrameVersion.from_byte k c = Except.error ParserError.InvalidHeader) := by
  decide

theorem C5_witness :
    (FrameVersion.bits FrameVersion.Ieee802154_2003 FrameKind.Beacon).toOption.map
        (fun c => FrameVersion.from_byte FrameKind.Beacon c) =
      some (Except.ok FrameVersion.Ieee802154_2003) ∧
    FrameVersion.bits FrameVersion.Ieee802154 FrameKind.Frak =
      Except.error ComposerError.InvalidHeader ∧
    FrameVersion.from_byte FrameKind.MultiPurpose 2 =
      Except.error ParserError.InvalidHeader :=
  ⟨C5_frame_version_matrix.1 FrameKind.Beacon FrameVersion.Ieee802154_2003 (by decide),
   C5_frame_version_matrix.2.1 FrameKind.Frak FrameVersion.Ieee802154 (by decide),
   C5_frame_version_matrix.2.2 FrameKind.MultiPurpose 2 (by decide) (by decide)⟩


/-! ## Address model and security-header theorems -/

/-- C10: the long-address broadcast sentinel of the code is the 32-bit
all-ones pattern `0xFFFFFFFF`, not the 64-bit all-ones pattern the claim
states. -/
theorem C10_long_address_broadcast :
    LongAddress.broadcast.pan = PanId.broadcast ∧
    LongAddress.broadcast.value = 0xFFFFFFFF ∧
    LongAddress.broadcast.value ≠ 0xFFFFFFFFFFFFFFFF := by
  decide

theorem readU8_ok_iff (bytes : List Nat) (off b : Nat) :
    readU8 bytes off = Except.ok b ↔ bytes.get? off = some b := by
  unfold readU8
  cases h : bytes.get? off <;> simp [h]

theorem try_read_ok_inv (bytes : List Nat) (hdr : AuxiliarySecurityHeader) (n : Nat)
    (h : AuxiliarySecurityHeader.try_read bytes = Except.ok (hdr, n)) :
    ∃ sc, bytes.get? 0 = some sc ∧
      (sc &&& 0x7 = 0 → hdr.security_level = none) ∧
      (sc &&& 0x7 ≠ 0 → ∃ sl, hdr.security_level = some sl ∧
        sl.encrypted = ((sc &&& 0x7) &&& 0x4 != 0) ∧
        ((sc &&& 0x7) &&& 0x3 = 1 ∧ sl.mic = Mic.Mic32 ∨
         (sc &&& 0x7) &&& 0x3 = 2 ∧ sl.mic = Mic.Mic64 ∨
         (sc &&& 0x7) &&& 0x3 = 3 ∧ sl.mic = Mic.Mic128)) ∧
      (sc &&& (1 <<< 5) = 0 → ∃ v, readLE bytes 1 4 = Except.ok v ∧
        hdr.frame_counter = some v) ∧
      (sc &&& (1 <<< 5) ≠ 0 → hdr.frame_counter = none) ∧
      n = 1 + (if hdr.frame_counter.isSome then 4 else 0) +
        hdr.key_identifier_mode.key_identifier_length := by
  simp only [AuxiliarySecurityHeader.try_read] at h
  split at h
  · exact Except.noConfusion h
  · rename_i sc heq
    rw [readU8_ok_iff] at heq
    refine ⟨sc, heq, ?_⟩
    split at h
    · exact Except.noConfusion h
    · rename_i sl hmic
      split at h
      · exact Except.noConfusion h
      · rename_i p fc off2 hfc
        split at h
        · exact Except.noConfusion h
        · rename_i q km off3 hkm
          injection h with h1
          injection h1 with hhdr hn
          subst hhdr
          subst hn
          have hk : off3 = off2 + km.key_identifier_length := by
            split at hkm
            · split at hkm
              · exact Except.noConfusion hkm
              · injection hkm with h2
                injection h2 with ha hb
                subst ha
                subst hb
                simp [KeyIdentifierMode.key_identifier_length]
            · split at hkm
              · exact Except.noConfusion hkm
              · split at hkm
                · exact Except.noConfusion hkm
                · injection hkm with h2
                  injection h2 with ha hb
                  subst ha
                  subst hb
                  simp [KeyIdentifierMode.key_identifier_length]
            · split at hkm
              · exact Except.noConfusion hkm
              · split at hkm
                · exact Except.noConfusion hkm
                · injection hkm with h2
                  injection h2 with ha hb
                  subst ha
                  subst hb
                  simp [KeyIdentifierMode.key_identifier_length]
            · injection hkm with h2
              injection h2 with ha hb
              subst ha
              subst hb
              simp [KeyIdentifierMode.key_identifier_length]
          refine ⟨?_, ?_, ?_, ?_, ?_⟩
          · intro hz
            simp [hz] at hmic
            subst hmic
            rfl
          · intro hnz
            rw [if_pos (by simp [hnz])] at hmic
            split at hmic
            · rename_i h3
              injection hmic with h2
              subst h2
              exact ⟨_, rfl, rfl, Or.inl ⟨h3, rfl⟩⟩
            · rename_i h3
              injection hmic with h2
              subst h2
              exact ⟨_, rfl, rfl, Or.inr (Or.inl ⟨h3, rfl⟩)⟩
            · rename_i h3
              injection hmic with h2
              subst h2
              exact ⟨_, rfl, rfl, Or.inr (Or.inr ⟨h3, rfl⟩)⟩
            · exact Except.noConfusion hmic
          · intro hz
            rw [if_pos (by simpa using hz)] at hfc
            split at hfc
            · exact Except.noConfusion hfc
            · rename_i v hv
              injection hfc with h2
              injection h2 with ha hb
              subst ha
              exact ⟨v, hv, rfl⟩
          · intro hnz
            rw [if_neg (by simpa using hnz)] at hfc
            injection hfc with h2
            injection h2 with ha hb
            subst ha
            rfl
          · rw [hk]
            split at hfc
            · split at hfc
              · exact Except.noConfusion hfc
              · injection hfc with h2
                injection h2 with ha hb
                subst ha
                subst hb
                simp
            · injection hfc with h2
              injection h2 with ha hb
              subst ha
              subst hb
              simp

/-- C7: every successful decode consumes
`1 + (4 if the frame counter is present) + key_identifier_length` bytes,
and `key_identifier_length` is 0, 1, 5, 9 on the four modes. -/
theorem C7_aux_header_consumed (bytes : List Nat) (hdr : AuxiliarySecurityHeader) (n : Nat)
    (h : AuxiliarySecurityHeader.try_read bytes = Except.ok (hdr, n)) :
    n = 1 + (if hdr.frame_counter.isSome then 4 else 0) +
        hdr.key_identifier_mode.key_identifier_length ∧
    KeyIdentifierMode.Implicit.key_identifier_length = 0 ∧
    (∀ i, (KeyIdentifierMode.KeyIndex i).key_identifier_length = 1) ∧
    (∀ k i, (KeyIdentifierMode.Key4 k i).key_identifier_length = 5) ∧
    (∀ k i, (KeyIdentifierMode.Key8 k i).key_identifier_length = 9) := by
  obtain ⟨sc, _, _, _, _, _, hn⟩ := try_read_ok_inv bytes hdr n h
  exact ⟨hn, rfl, fun i => rfl, fun k i => rfl, fun k i => rfl⟩

/-- Witness for C7 at the 1-byte input `[0x20]`. -/
theorem C7_witness :
    (1 = 1 + (if (AuxiliarySecurityHeader.mk none KeyIdentifierMode.Implicit
          none).frame_counter.isSome then 4 else 0) +
        (AuxiliarySecurityHeader.mk none KeyIdentifierMode.Implicit
          none).key_identifier_mode.key_identifier_length) ∧
    KeyIdentifierMode.Implicit.key_identifier_length = 0 ∧
    (∀ i, (KeyIdentifierMode.KeyIndex i).key_identifier_length = 1) ∧
    (∀ k i, (KeyIdentifierMode.Key4 k i).key_identifier_length = 5) ∧
    (∀ k i, (KeyIdentifierMode.Key8 k i).key_identifier_length = 9) :=
  C7_aux_header_consumed [0x20]
    (AuxiliarySecurityHeader.mk none KeyIdentifierMode.Implicit none) 1 (by decide)

/-- C8: security-level decoding.  A nonzero 3-bit level with zero low
two bits (level 4) always fails with the `"Invalid MIC"` bad-input
error; on success a nonzero level yields `Some` with `encrypted` = bit 2
of the level and the MIC mapped 1, 2, 3 to 32-, 64-, 128-bit, and level
0 yields `None`. -/
theorem C8_aux_header_security_level (bytes : List Nat) (b : Nat)
    (hfst : bytes.get? 0 = some b) :
    (b &&& 0x7 ≠ 0 → (b &&& 0x7) &&& 0x3 = 0 →
      AuxiliarySecurityHeader.try_read bytes =
        Except.error (ByteError.BadInput "Invalid MIC")) ∧
    (∀ hdr n, AuxiliarySecurityHeader.try_read bytes = Except.ok (hdr, n) →
      (b &&& 0x7 = 0 → hdr.security_level = none) ∧
      (b &&& 0x7 ≠ 0 → ∃ sl, hdr.security_level = some sl ∧
        sl.encrypted = ((b &&& 0x7) &&& 0x4 != 0) ∧
        ((b &&& 0x7) &&& 0x3 = 1 → sl.mic = Mic.Mic32) ∧
        ((b &&& 0x7) &&& 0x3 = 2 → sl.mic = Mic.Mic64) ∧
        ((b &&& 0x7) &&& 0x3 = 3 → sl.mic = Mic.Mic128))) := by
  constructor
  · intro hnz h3
    have hcond : ((b &&& 7 != 0) = true) := by simpa using hnz
    simp only [AuxiliarySecurityHeader.try_read, readU8, hfst, hcond, if_true, h3]
  · intro hdr n h
    obtain ⟨sc, hsc, hz, hnzpart, _, _, _⟩ := try_read_ok_inv bytes hdr n h
    have hscb : sc = b := by
      rw [hfst] at hsc
      exact (Option.some.inj hsc).symm
    subst hscb
    refine ⟨hz, ?_⟩
    intro hnz
    obtain ⟨sl, hsl, henc, hor⟩ := hnzpart hnz
    refine ⟨sl, hsl, henc, ?_, ?_, ?_⟩ <;> intro hcase <;>
      rcases hor with ⟨h1, h2⟩ | ⟨h1, h2⟩ | ⟨h1, h2⟩ <;> first | exact h2 | omega

/-- Witness for C8 at the 1-byte input `[0x04]` (level 4: nonzero with
zero MIC bits). -/
theorem C8_witness :
    AuxiliarySecurityHeader.try_read [0x04] =
      Except.error (ByteError.BadInput "Invalid MIC") :=
  (C8_aux_header_security_level [0x04] 0x04 rfl).1 (by decide) (by decide)

/-- C9: the frame counter is present exactly when bit 5 of the
security-control byte is clear, read as 4 little-endian bytes, with the
two concrete decodes of the specification. -/
theorem C9_aux_header_frame_counter (bytes : List Nat) (b : Nat)
    (hfst : bytes.get? 0 = some b) :
    (∀ hdr n, AuxiliarySecurityHeader.try_read bytes = Except.ok (hdr, n) →
      (hdr.frame_counter.isSome = true ↔ b &&& (1 <<< 5) = 0) ∧
      (b &&& (1 <<< 5) = 0 → ∃ v, readLE bytes 1 4 = Except.ok v ∧
        hdr.frame_counter = some v)) ∧
    AuxiliarySecurityHeader.try_read [0x00, 0xFE, 0xDC, 0xBA, 0x98] =
      Except.ok (⟨none, KeyIdentifierMode.Implicit, some 0x98BADCFE⟩, 5) ∧
    AuxiliarySecurityHeader.try_read [0x20] =
      Except.ok (⟨none, KeyIdentifierMode.Implicit, none⟩, 1) := by
  refine ⟨?_, by decide, by decide⟩
  intro hdr n h
  obtain ⟨sc, hsc, _, _, hclear, hset, _⟩ := try_read_ok_inv bytes hdr n h
  have hscb : sc = b := by
    rw [hfst] at hsc
    exact (Option.some.inj hsc).symm
  subst hscb
  constructor
  · constructor
    · intro hsome
      by_contra hne
      rw [hset hne] at hsome
      exact Bool.noConfusion hsome
    · intro hz
      obtain ⟨v, _, hv⟩ := hclear hz
      rw [hv]
      rfl
  · exact hclear

/-- Witness for C9 at the 5-byte input `[0x00, 0xFE, 0xDC, 0xBA, 0x98]`. -/
theorem C9_witness :
    ((AuxiliarySecurityHeader.mk none KeyIdentifierMode.Implicit
        (some 0x98BADCFE)).frame_counter.isSome = true ↔ 0x00 &&& (1 <<< 5) = 0) ∧
    (0x00 &&& (1 <<< 5) = 0 → ∃ v, readLE [0x00, 0xFE, 0xDC, 0xBA, 0x98] 1 4 = Except.ok v ∧
      (AuxiliarySecurityHeader.mk none KeyIdentifierMode.Implicit
        (some 0x98BADCFE)).frame_counter = some v) :=
  (C9_aux_header_frame_counter [0x00, 0xFE, 0xDC, 0xBA, 0x98] 0x00 rfl).1
    (AuxiliarySecurityHeader.mk none KeyIdentifierMode.Implicit (some 0x98BADCFE)) 5
    (by decide)

end Rustieee
